import Mathlib

/-!
# ctypes.sh, `src/callback.c`: native callbacks backed by bash functions

A shallow embedding of the two functions of `callback.c`:

* `execute_bash_trampoline`, entered by libffi whenever native code calls a
  generated callback, and
* `generate_native_callback`, the `callback` builtin.

Both functions are mostly glue between collaborators that live outside the
file (bash, libffi, the C library and the type codec of `types.c`).  Those
collaborators are fields of `Externals`; every call the C code makes to one of
them with an observable effect is appended, in program order, to the `trace`
of the state `Shell`.

Conventions of the embedding: a `char *` that the C code may receive as NULL
is an `Option String`; arrays are lists, read with a default outside their
bounds (where the C code has no defined behaviour); the allocations of the C
library (`malloc`, `realloc`, `strdup`, `asprintf`) succeed and are not
traced; `int nargs` counts in `Nat`, and the one place where the width of a
machine integer decides the control flow, the start of the trampoline loop,
is computed modulo `2 ^ 32`.
-/

namespace Callback

/-! ## Data model -/

/-- A machine address (`void *`). -/
abbrev Ptr := Nat

/-- An ABI type handle (`ffi_type *`). -/
abbrev ffi_type := Nat

/-- The raw argument slot `args[i]` handed over by the native caller. -/
abbrev RawArg := Nat

/-- A resolved bash function (`SHELL_VAR *`, never NULL). -/
abbrev SHELL_VAR := Nat

/-- Native memory: the value stored at each address. -/
abbrev Memory := Ptr → Nat

/-- The libffi global `ffi_type_pointer` (its address is the handle). -/
def ffi_type_pointer : ffi_type := 14

/-- Status codes of libffi. -/
inductive ffi_status where
  | FFI_OK
  | FFI_BAD_TYPEDEF
  | FFI_BAD_ABI
  deriving DecidableEq, Repr

/-- The call-interface descriptor, as far as `callback.c` reads or fills it:
`nargs` is an `unsigned`, `arg_types` the array of argument type handles. -/
structure ffi_cif where
  nargs : Nat
  arg_types : List ffi_type
  rtype : ffi_type
  deriving DecidableEq, Repr

/-- The words of a bash `WORD_LIST` built by the trampoline, each given by the
C string that was handed to `make_word` (`none` is the NULL pointer). -/
abbrev WORD_LIST := List (Option String)

/-- Exit statuses of bash builtins (`shell.h`). -/
def EXECUTION_FAILURE : Int := 1

/-- Usage-error status of bash builtins (`shell.h`). -/
def EX_USAGE : Int := 258

/-- One observable call made by `callback.c`, with its arguments. -/
inductive Event where
  | fprintf_stderr (text : String)
  | encode_primitive_type (format : String) (type : ffi_type) (value : RawArg)
  | execute_shell_function (function : SHELL_VAR) (params : WORD_LIST)
  | builtin_error (text : String)
  | builtin_warning (text : String)
  | builtin_usage
  | free (p : Ptr)
  | ffi_closure_alloc (closure : Ptr) (code : Ptr)
  | decode_type_prefix (tok : String)
  | ffi_prep_cif (cif : ffi_cif)
  | ffi_prep_closure_loc (closure : Ptr) (cif : ffi_cif) (user_data : List String) (codeloc : Ptr)
  | bind_variable (name : String) (value : String)
  deriving DecidableEq, Repr

/-- A closure that libffi has bound: calling `code` enters
`execute_bash_trampoline` with `cif` and `user_data`.  The state keeps the
bound closures newest first. -/
structure Closure where
  code : Ptr
  cif : ffi_cif
  user_data : List String
  deriving DecidableEq, Repr

/-- The state threaded through the program. -/
structure Shell where
  trace : List Event
  closures : List Closure
  mem : Memory

/-- Append one event to the trace. -/
def Shell.emit (s : Shell) (e : Event) : Shell :=
  { s with trace := s.trace ++ [e] }

/-- The collaborators of `callback.c` that are not defined in it.

* bash: `find_function`, `execute_shell_function`, `internal_getopt`,
  `interactive_shell`;
* `types.c` of ctypes.sh: `encode_primitive_type`, `decode_primitive_type`,
  `decode_type_prefix`;
* libffi: `ffi_closure_alloc`, `ffi_prep_cif`, `ffi_prep_closure_loc`;
* the C library: `fmt_p`, the text printed for the conversion `%p`.

`encode_primitive_type` returns a `char *`, `none` being NULL.
`execute_shell_function` runs a bash function, which may write to native
memory.  `internal_getopt` stands for the whole sequence of calls
`internal_getopt (list, "d:n:")`: the options it returns before `-1`, each
with its `list_optarg`, and the value of `loptend` after the `-1`.
`decode_primitive_type` yields the buffer it allocated for the decoded value.
`decode_type_prefix` yields the type handle and the format it stores through
its out-parameters.  `ffi_closure_alloc` yields the closure and the executable
address. -/
structure Externals where
  find_function : String → Option SHELL_VAR
  encode_primitive_type : String → ffi_type → RawArg → Option String
  fmt_p : Ptr → String
  execute_shell_function : SHELL_VAR → WORD_LIST → Memory → Memory
  internal_getopt : List String → List (Char × String) × List String
  decode_primitive_type : String → ffi_type → Option Ptr
  decode_type_prefix : String → Option (ffi_type × String)
  ffi_closure_alloc : Ptr × Ptr
  ffi_prep_cif : ffi_cif → ffi_status
  ffi_prep_closure_loc : Ptr → ffi_cif → List String → Ptr → ffi_status
  interactive_shell : Bool

/-! ## `execute_bash_trampoline` -/

/-- Conversion of a 32-bit `unsigned` to `int`. -/
def to_int (u : Nat) : Int :=
  if u < 2 ^ 31 then (u : Int) else (u : Int) - 2 ^ 32

/-- The initial value of the loop index, `i = cif->nargs - 1`: the subtraction
is done on `unsigned` and the result converted to `int`. -/
def loop_start (nargs : Nat) : Int :=
  to_int ((nargs + 2 ^ 32 - 1) % 2 ^ 32)

/-- The body of the loop `for (...; i >= 0; i--)` of `execute_bash_trampoline`,
run for the indices `k - 1` down to `0`: argument `i` is encoded from
`proto[i+1]`, `cif->arg_types[i]` and `args[i]`, and the result is put in front
of `params`. -/
def decode_parameters (E : Externals) (cif : ffi_cif) (args : List RawArg)
    (proto : List String) : Nat → WORD_LIST → Shell → WORD_LIST × Shell
  | 0, params, s => (params, s)
  | i + 1, params, s =>
    let format := proto.getD (i + 1) ""
    let type := cif.arg_types.getD i 0
    let value := args.getD i 0
    let parameter := E.encode_primitive_type format type value
    decode_parameters E cif args proto i (parameter :: params)
      (s.emit (Event.encode_primitive_type format type value))

/-- The function `execute_bash_trampoline (cif, retval, args, uarg)`. -/
def execute_bash_trampoline (E : Externals) (cif : ffi_cif) (retval : Ptr)
    (args : List RawArg) (uarg : List String) (s : Shell) : Shell :=
  let proto := uarg
  let name := proto.getD 0 ""
  match E.find_function name with
  | none =>
    s.emit (Event.fprintf_stderr
      ("error: unable to resolve function " ++ name ++ " during callback"))
  | some function =>
    let i := loop_start cif.nargs
    let r := decode_parameters E cif args proto (i + 1).toNat [] s
    let params := r.1
    let s := r.2
    let result := "pointer:" ++ E.fmt_p retval
    let params := some result :: params
    let params := some name :: params
    { s with
      trace := s.trace ++ [Event.execute_shell_function function params]
      mem := E.execute_shell_function function params s.mem }

/-! ## `generate_native_callback` -/

/-- The C library's `realloc` on an array of `n` slots: the old contents are
kept and the new slots hold no meaningful value yet. -/
def realloc {α : Type} [Inhabited α] (l : List α) (n : Nat) : List α :=
  l.take n ++ List.replicate (n - l.length) default

/-- How the option loop of `generate_native_callback` ends: the loop runs to
its end with `resultname` set, or the function returns from inside it. -/
inductive Options where
  | proceed (resultname : String)
  | returned (status : Int) (s : Shell)

/-- The loop `while ((opt = internal_getopt (list, "d:n:")) != -1)` with its
`switch`, over the options that `internal_getopt` returns (`char opt` is a
signed character, so that the `-1` of `internal_getopt` ends the loop). -/
def process_options (E : Externals) :
    List (Char × String) → String → Shell → Options
  | [], resultname, _ => Options.proceed resultname
  | (opt, list_optarg) :: rest, _, s =>
    if opt = 'n' then
      process_options E rest list_optarg s
    else if opt = 'd' then
      let callbacktype := ffi_type_pointer
      match E.decode_primitive_type list_optarg callbacktype with
      | none =>
        Options.returned EXECUTION_FAILURE
          (s.emit (Event.builtin_error
            ("failed to decode callback from parameter " ++ list_optarg)))
      | some callback => Options.returned 0 (s.emit (Event.free callback))
    else
      Options.returned EX_USAGE (s.emit Event.builtin_usage)

/-- The loop `while (list)` of `generate_native_callback`: both arrays grow by
one slot, and `decode_type_prefix` fills `argtypes[nargs]` and
`proto[nargs+1]`.  The result is `none` after `goto error`. -/
def decode_arguments (E : Externals) :
    List String → Nat → List ffi_type → List String → Shell →
      Option (Nat × List ffi_type × List String) × Shell
  | [], nargs, argtypes, proto, s => (some (nargs, argtypes, proto), s)
  | word :: list, nargs, argtypes, proto, s =>
    let argtypes := realloc argtypes (nargs + 1)
    let proto := realloc proto (nargs + 1 + 1)
    let s := s.emit ( Event.decode_type_prefix word)
    match E.decode_type_prefix word with
    | none =>
      (none, s.emit (Event.builtin_error
        ("failed to decode type from parameter " ++ word)))
    | some (type, format) =>
      decode_arguments E list (nargs + 1) (argtypes.set nargs type)
        (proto.set (nargs + 1) format) s

/-- The function `generate_native_callback (list)`: the returned status and
the state it leaves.  The buffer `retval` of 1024 bytes is larger than any
text `pointer:%p`, so `snprintf` never truncates. -/
def generate_native_callback (E : Externals) (list : List String) (s : Shell) :
    Int × Shell :=
  let resultname := "DLRETVAL"
  match process_options E ( E.internal_getopt list).1 resultname s with
  | Options.returned status s => (status, s)
  | Options.proceed resultname =>
    match ( E.internal_getopt list).2 with
    | [] => (EX_USAGE, s.emit Event.builtin_usage)
    | [_] => (EX_USAGE, s.emit Event.builtin_usage)
    | name :: rettok :: list =>
      let closure := E.ffi_closure_alloc.1
      let callback := E.ffi_closure_alloc.2
      let s := s.emit (Event.ffi_closure_alloc closure callback)
      let proto := [name]
      let s := s.emit ( Event.decode_type_prefix rettok)
      match E.decode_type_prefix rettok with
      | none =>
        (EXECUTION_FAILURE,
          s.emit (Event.builtin_warning ("couldnt parse the return type " ++ rettok)))
      | some (rettype, _) =>
        match decode_arguments E list 0 [] proto s with
        | (none, s) => (1, s)
        | (some (nargs, argtypes, proto), s) =>
          let cif : ffi_cif := { nargs := nargs, arg_types := argtypes, rtype := rettype }
          let s := s.emit (Event.ffi_prep_cif cif)
          if E.ffi_prep_cif cif = ffi_status.FFI_OK then
            let s := s.emit (Event.ffi_prep_closure_loc closure cif proto callback)
            if E.ffi_prep_closure_loc closure cif proto callback = ffi_status.FFI_OK then
              let s := { s with closures := Closure.mk callback cif proto :: s.closures }
              let retval := "pointer:" ++ E.fmt_p callback
              let s := if E.interactive_shell then
                s.emit (Event.fprintf_stderr (retval ++ "\n")) else s
              (0, s.emit (Event.bind_variable resultname retval))
            else (0, s)
          else (0, s)

/-- What libffi does when native code calls the address `code` with the
arguments `args` and the return slot `retval`: the closure bound to `code`
is entered through `execute_bash_trampoline`. -/
def native_call (E : Externals) (code : Ptr) (retval : Ptr) (args : List RawArg)
    (s : Shell) : Option Shell :=
  match s.closures.find? (fun c => c.code == code) with
  | none => none
  | some c => some (execute_bash_trampoline E c.cif retval args c.user_data s)


/-- The invocations of bash functions recorded in a trace, oldest first. -/
def invocations (tr : List Event) : List (SHELL_VAR × WORD_LIST) :=
  tr.filterMap (fun e =>
    match e with
    | Event.execute_shell_function function params => some (function, params)
    | _ => none)

/-- The calls of the codec `encode_primitive_type` recorded in a trace. -/
def codec_calls (tr : List Event) : List (String × ffi_type × RawArg) :=
  tr.filterMap (fun e =>
    match e with
    | Event.encode_primitive_type format type value => some (format, type, value)
    | _ => none)

/-- The variable bindings recorded in a trace. -/
def bindings (tr : List Event) : List (String × String) :=
  tr.filterMap (fun e =>
    match e with
    | Event.bind_variable name value => some (name, value)
    | _ => none)

/-- The calls of `ffi_prep_cif` and `ffi_prep_closure_loc` recorded in a
trace. -/
def prep_calls (tr : List Event) : List Event :=
  tr.filter (fun e =>
    match e with
    | Event.ffi_prep_cif _ => true
    | Event.ffi_prep_closure_loc _ _ _ _ => true
    | _ => false)

/-- The events of the parsing phase of `generate_native_callback`: the closure
allocation, the calls of the type parser and the diagnostics. -/
def parse_phase (e : Event) : Bool :=
  match e with
  | Event.ffi_closure_alloc _ _ => true
  | Event.decode_type_prefix _ => true
  | Event.builtin_error _ => true
  | Event.builtin_warning _ => true
  | _ => false

/-- The options `-n a` for the names `a` of a list, as `internal_getopt`
returns them. -/
def n_options (ns : List String) : List (Char × String) :=
  ns.map (fun a => ('n', a))

/-! ## A sample environment

Concrete collaborators on which the definitions can be evaluated. -/

/-- A sample `internal_getopt` for the option string `d:n:`, on words that hold
one option each, the argument being the next word. -/
def sample_getopt : List String → List (Char × String) × List String
  | [] => ([], [])
  | [w] => if w.data.head? = some '-' then ([('?', "")], []) else ([], [w])
  | w :: a :: rest =>
    if w = "-n" then (('n', a) :: (sample_getopt rest).1, (sample_getopt rest).2)
    else if w = "-d" then (('d', a) :: (sample_getopt rest).1, (sample_getopt rest).2)
    else if w.data.head? = some '-' then
      (('?', "") :: (sample_getopt (a :: rest)).1, (sample_getopt (a :: rest)).2)
    else ([], w :: a :: rest)

/-- A sample `%p`: `(nil)` for the null pointer, otherwise hexadecimal. -/
def sample_fmt_p (p : Ptr) : String :=
  if p = 0 then "(nil)" else "0x" ++ String.mk (Nat.toDigits 16 p)

/-- A sample environment: the function `myfn` exists and writes nothing, the
tokens `int` and `pointer` parse, integers are rendered in decimal, and
libffi accepts every signature. -/
def sampleEnv : Externals where
  find_function := fun name => if name = "myfn" then some 1 else none
  encode_primitive_type := fun format _ value =>
    if format = "int:%d" then some ("int:" ++ String.mk (Nat.toDigits 10 value)) else none
  fmt_p := sample_fmt_p
  execute_shell_function := fun _ _ m => m
  internal_getopt := sample_getopt
  decode_primitive_type := fun text _ =>
    if text = "pointer:0x7000" then some 36864
    else if text = "pointer:0xdead" then some 36880 else none
  decode_type_prefix := fun tok =>
    if tok = "int" then some (10, "int:%d")
    else if tok = "pointer" then some (14, "pointer:%p") else none
  ffi_closure_alloc := (24576, 28672)
  ffi_prep_cif := fun _ => ffi_status.FFI_OK
  ffi_prep_closure_loc := fun _ _ _ _ => ffi_status.FFI_OK
  interactive_shell := false

/-- The sample environment with a libffi whose `ffi_prep_cif` rejects every
signature. -/
def badCifEnv : Externals :=
  { sampleEnv with ffi_prep_cif := fun _ => ffi_status.FFI_BAD_TYPEDEF }

/-- The sample environment with a libffi whose `ffi_prep_closure_loc` fails. -/
def badClosureEnv : Externals :=
  { sampleEnv with ffi_prep_closure_loc := fun _ _ _ _ => ffi_status.FFI_BAD_ABI }

/-- The sample environment in which `myfn` stores 7 in the word at address
4096. -/
def writerEnv : Externals :=
  { sampleEnv with execute_shell_function := fun _ _ m => Function.update m 4096 7 }

/-- An initial state: nothing traced, no closure bound, memory all zero. -/
def shell0 : Shell := { trace := [], closures := [], mem := fun _ => 0 }

/-! ## Facts about the trampoline loop -/

theorem loop_start_count (n : Nat) (h : n < 2 ^ 31) :
    (loop_start n + 1).toNat = n := by
  unfold loop_start to_int
  norm_num at h ⊢
  split_ifs <;> omega

theorem decode_parameters_eq (E : Externals) (cif : ffi_cif) (args : List RawArg)
    (proto : List String) (k : Nat) (params : WORD_LIST) (s : Shell) :
    decode_parameters E cif args proto k params s =
      ((List.range k).map (fun i => E.encode_primitive_type (proto.getD (i + 1) "")
          (cif.arg_types.getD i 0) (args.getD i 0)) ++ params,
       { s with trace := s.trace ++ ((List.range k).map (fun i =>
          Event.encode_primitive_type (proto.getD (i + 1) "")
            (cif.arg_types.getD i 0) (args.getD i 0))).reverse }) := by
  induction k generalizing params s with
  | zero => simp [decode_parameters]
  | succ k ih =>
    simp only [decode_parameters, ih, Shell.emit, List.range_succ, List.map_append,
      List.map_cons, List.map_nil, List.reverse_append, List.reverse_cons,
      List.reverse_nil, List.append_assoc, List.nil_append, List.cons_append]

theorem map_range_getD {α β γ δ : Type} (f : α → β → γ → δ) (da : α) (db : β) (dc : γ) :
    ∀ (zs : List γ) (xs : List α) (ys : List β),
      xs.length = zs.length → ys.length = zs.length →
      (List.range zs.length).map
          (fun i => f (xs.getD i da) (ys.getD i db) (zs.getD i dc)) =
        List.zipWith₃ f xs ys zs := by
  intro zs
  induction zs with
  | nil =>
    intro xs ys hx hy
    cases xs <;> cases ys <;> simp_all [List.zipWith₃]
  | cons z zs ih =>
    intro xs ys hx hy
    cases xs with
    | nil => simp at hx
    | cons x xs =>
      cases ys with
      | nil => simp at hy
      | cons y ys =>
        simp only [List.length_cons, add_left_inj] at hx hy
        rw [List.length_cons, List.range_succ_eq_map, List.map_cons, List.map_map]
        simp only [List.zipWith₃, List.getD_cons_zero]
        rw [← ih xs ys hx hy]
        rfl

theorem length_zipWith3 {α β γ δ : Type} (f : α → β → γ → δ) :
    ∀ (zs : List γ) (xs : List α) (ys : List β),
      xs.length = zs.length → ys.length = zs.length →
      (List.zipWith₃ f xs ys zs).length = zs.length := by
  intro zs
  induction zs with
  | nil =>
    intro xs ys hx hy
    cases xs <;> cases ys <;> simp_all [List.zipWith₃]
  | cons z zs ih =>
    intro xs ys hx hy
    cases xs with
    | nil => simp at hx
    | cons x xs =>
      cases ys with
      | nil => simp at hy
      | cons y ys =>
        simp only [List.length_cons, add_left_inj] at hx hy
        simp [List.zipWith₃, ih xs ys hx hy]

/-- The trampoline on a resolved function, for any descriptor: the codec is
called for the indices from the last to the first, and the function is then
invoked on the name, the return-slot token and the codec results. -/
theorem trampoline_resolved (E : Externals) (cif : ffi_cif) (retval : Ptr)
    (args : List RawArg) (proto : List String) (s : Shell) (function : SHELL_VAR)
    (hf : E.find_function (proto.getD 0 "") = some function) :
    execute_bash_trampoline E cif retval args proto s =
      { s with
        trace := s.trace ++
          ((List.range (loop_start cif.nargs + 1).toNat).map (fun i =>
            Event.encode_primitive_type (proto.getD (i + 1) "")
              (cif.arg_types.getD i 0) (args.getD i 0))).reverse ++
          [Event.execute_shell_function function
            (some (proto.getD 0 "") :: some ("pointer:" ++ E.fmt_p retval) ::
              (List.range (loop_start cif.nargs + 1).toNat).map (fun i =>
                E.encode_primitive_type (proto.getD (i + 1) "")
                  (cif.arg_types.getD i 0) (args.getD i 0)))]
        mem := E.execute_shell_function function
            (some (proto.getD 0 "") :: some ("pointer:" ++ E.fmt_p retval) ::
              (List.range (loop_start cif.nargs + 1).toNat).map (fun i =>
                E.encode_primitive_type (proto.getD (i + 1) "")
                  (cif.arg_types.getD i 0) (args.getD i 0))) s.mem } := by
  simp only [execute_bash_trampoline, hf, decode_parameters_eq, List.append_nil]

/-- The trampoline on a name that does not resolve. -/
theorem trampoline_unresolved (E : Externals) (cif : ffi_cif) (retval : Ptr)
    (args : List RawArg) (proto : List String) (s : Shell)
    (hf : E.find_function (proto.getD 0 "") = none) :
    execute_bash_trampoline E cif retval args proto s =
      s.emit (Event.fprintf_stderr
        ("error: unable to resolve function " ++ proto.getD 0 "" ++ " during callback")) := by
  simp only [execute_bash_trampoline, hf]

/-- The trampoline on a closure context `name :: hs` whose descriptor and
argument vector have as many entries as there are hints. -/
theorem trampoline_lockstep (E : Externals) (name : String) (hs : List String)
    (ts : List ffi_type) (rtype : ffi_type) (args : List RawArg) (retval : Ptr)
    (s : Shell) (function : SHELL_VAR)
    (hh : hs.length = args.length) (ht : ts.length = args.length)
    (hn : args.length < 2 ^ 31) (hf : E.find_function name = some function) :
    execute_bash_trampoline E ⟨args.length, ts, rtype⟩ retval args (name :: hs) s =
      { s with
        trace := s.trace ++
          (List.zipWith₃ Event.encode_primitive_type hs ts args).reverse ++
          [Event.execute_shell_function function
            (some name :: some ("pointer:" ++ E.fmt_p retval) ::
              List.zipWith₃ E.encode_primitive_type hs ts args)]
        mem := E.execute_shell_function function
            (some name :: some ("pointer:" ++ E.fmt_p retval) ::
              List.zipWith₃ E.encode_primitive_type hs ts args) s.mem } := by
  rw [trampoline_resolved E _ retval args (name :: hs) s function (by simpa using hf)]
  simp only [loop_start_count _ hn, List.getD_cons_succ, List.getD_cons_zero]
  rw [map_range_getD E.encode_primitive_type "" 0 0 args hs ts hh ht,
    map_range_getD Event.encode_primitive_type "" 0 0 args hs ts hh ht]

theorem invocations_append (a b : List Event) :
    invocations (a ++ b) = invocations a ++ invocations b := by
  simp [invocations, List.filterMap_append]

theorem codec_calls_append (a b : List Event) :
    codec_calls (a ++ b) = codec_calls a ++ codec_calls b := by
  simp [codec_calls, List.filterMap_append]

theorem invocations_encode_events (l : List Nat) (a : Nat → String) (b : Nat → ffi_type)
    (c : Nat → RawArg) :
    invocations ((l.map (fun i => Event.encode_primitive_type (a i) (b i) (c i))).reverse) = [] := by
  induction l with
  | nil => rfl
  | cons x l ih =>
    rw [List.map_cons, List.reverse_cons, invocations_append, ih]
    rfl

theorem invocations_zipWith3 :
    ∀ (hs : List String) (ts : List ffi_type) (args : List RawArg),
      invocations ((List.zipWith₃ Event.encode_primitive_type hs ts args).reverse) = [] := by
  intro hs
  induction hs with
  | nil => intro ts args; rfl
  | cons h hs ih =>
    intro ts args
    cases ts with
    | nil => rfl
    | cons t ts =>
      cases args with
      | nil => rfl
      | cons a args =>
        simp only [List.zipWith₃, List.reverse_cons]
        rw [invocations_append, ih ts args]
        rfl

/-! ## Claims about `execute_bash_trampoline` -/

/-- C1: for a closure context `name :: hs`, a descriptor with `nargs = n` and
argument types `ts`, a raw argument vector `args` of `n` entries (`n` a C
`int` argument count) and a return slot `retval`, if `name` resolves then the
trampoline calls the codec for the arguments from the last to the first and
then invokes the function exactly once, with the `n + 2` words: the name,
`pointer:<retval>`, and the encoded arguments in declared order. -/
theorem C1_trampoline_invokes_once_with_encoded_words (E : Externals) (name : String)
    (hs : List String) (ts : List ffi_type) (rtype : ffi_type) (args : List RawArg)
    (retval : Ptr) (s : Shell) (function : SHELL_VAR)
    (hh : hs.length = args.length) (ht : ts.length = args.length)
    (hn : args.length < 2 ^ 31) (hf : E.find_function name = some function) :
    (execute_bash_trampoline E ⟨args.length, ts, rtype⟩ retval args (name :: hs) s).trace =
        s.trace ++ (List.zipWith₃ Event.encode_primitive_type hs ts args).reverse ++
          [Event.execute_shell_function function
            (some name :: some ("pointer:" ++ E.fmt_p retval) ::
              List.zipWith₃ E.encode_primitive_type hs ts args)] ∧
      invocations
          (execute_bash_trampoline E ⟨args.length, ts, rtype⟩ retval args (name :: hs) s).trace =
        invocations s.trace ++
          [(function, some name :: some ("pointer:" ++ E.fmt_p retval) ::
              List.zipWith₃ E.encode_primitive_type hs ts args)] ∧
      (some name :: some ("pointer:" ++ E.fmt_p retval) ::
          List.zipWith₃ E.encode_primitive_type hs ts args).length = args.length + 2 := by
  rw [trampoline_lockstep E name hs ts rtype args retval s function hh ht hn hf]
  refine ⟨rfl, ?_, ?_⟩
  · simp only [invocations_append, invocations_zipWith3, List.append_nil]
    rfl
  · simp [length_zipWith3 E.encode_primitive_type args hs ts hh ht]

/-- C1 on the scenario of the specification: `myfn int int int` called with
`(3, 4)` and the return slot at address 4096. -/
theorem C1_witness :
    (execute_bash_trampoline sampleEnv ⟨2, [10, 10], 10⟩ 4096 [3, 4]
        ["myfn", "int:%d", "int:%d"] shell0).trace =
      [Event.encode_primitive_type "int:%d" 10 4, Event.encode_primitive_type "int:%d" 10 3,
       Event.execute_shell_function 1
        [some "myfn", some "pointer:0x1000", some "int:3", some "int:4"]] ∧
    invocations (execute_bash_trampoline sampleEnv ⟨2, [10, 10], 10⟩ 4096 [3, 4]
        ["myfn", "int:%d", "int:%d"] shell0).trace =
      [(1, [some "myfn", some "pointer:0x1000", some "int:3", some "int:4"])] ∧
    [some "myfn", some "pointer:0x1000", some "int:3", some "int:4"].length = 4 :=
  C1_trampoline_invokes_once_with_encoded_words sampleEnv "myfn" ["int:%d", "int:%d"]
    [10, 10] 10 [3, 4] 4096 shell0 1 (by decide) (by decide) (by norm_num) (by decide)

/-- C3: when the name stored in the closure context does not resolve, the
trampoline reports the failure on the standard error stream and does nothing
else: no function is invoked, the codec is not called, and memory (the
return slot included) is unchanged. -/
theorem C3_unresolved_reports_and_leaves_slot (E : Externals) (cif : ffi_cif)
    (retval : Ptr) (args : List RawArg) (proto : List String) (s : Shell)
    (hf : E.find_function (proto.getD 0 "") = none) :
    (execute_bash_trampoline E cif retval args proto s).trace =
        s.trace ++ [Event.fprintf_stderr
          ("error: unable to resolve function " ++ proto.getD 0 "" ++ " during callback")] ∧
      invocations (execute_bash_trampoline E cif retval args proto s).trace =
        invocations s.trace ∧
      codec_calls (execute_bash_trampoline E cif retval args proto s).trace =
        codec_calls s.trace ∧
      (execute_bash_trampoline E cif retval args proto s).mem = s.mem ∧
      (execute_bash_trampoline E cif retval args proto s).mem retval = s.mem retval := by
  rw [trampoline_unresolved E cif retval args proto s hf]
  refine ⟨rfl, ?_, ?_, rfl, rfl⟩
  · simp only [Shell.emit, invocations_append]
    simp [invocations]
  · simp only [Shell.emit, codec_calls_append]
    simp [codec_calls]

/-- C3 on a context that names the function `gone`, which does not exist. -/
theorem C3_witness :
    (execute_bash_trampoline sampleEnv ⟨2, [10, 10], 10⟩ 4096 [3, 4]
        ["gone", "int:%d", "int:%d"] shell0).trace =
        shell0.trace ++ [Event.fprintf_stderr
          ("error: unable to resolve function " ++ "gone" ++ " during callback")] ∧
      invocations (execute_bash_trampoline sampleEnv ⟨2, [10, 10], 10⟩ 4096 [3, 4]
        ["gone", "int:%d", "int:%d"] shell0).trace = invocations shell0.trace ∧
      codec_calls (execute_bash_trampoline sampleEnv ⟨2, [10, 10], 10⟩ 4096 [3, 4]
        ["gone", "int:%d", "int:%d"] shell0).trace = codec_calls shell0.trace ∧
      (execute_bash_trampoline sampleEnv ⟨2, [10, 10], 10⟩ 4096 [3, 4]
        ["gone", "int:%d", "int:%d"] shell0).mem = shell0.mem ∧
      (execute_bash_trampoline sampleEnv ⟨2, [10, 10], 10⟩ 4096 [3, 4]
        ["gone", "int:%d", "int:%d"] shell0).mem 4096 = shell0.mem 4096 :=
  C3_unresolved_reports_and_leaves_slot sampleEnv ⟨2, [10, 10], 10⟩ 4096 [3, 4]
    ["gone", "int:%d", "int:%d"] shell0 (by decide)

/-- C8, evaluated where the code departs from it: in the sample environment
the codec yields no text for the second argument (format `bogus:%z`).  The
trampoline does not test that result: the NULL pointer is handed to
`make_word` as the word of that argument, the loop goes on to the first
argument, and the dispatch is not aborted.  (`make_word` belongs to bash; the
embedding takes it to return and records the pointer it was given, so that
here the call of `execute_shell_function` is reached with four words.) -/
theorem C8_codec_failure_not_tested :
    sampleEnv.encode_primitive_type "bogus:%z" 10 4 = none ∧
    codec_calls (execute_bash_trampoline sampleEnv ⟨2, [10, 10], 10⟩ 4096 [3, 4]
        ["myfn", "int:%d", "bogus:%z"] shell0).trace =
      [("bogus:%z", 10, 4), ("int:%d", 10, 3)] ∧
    invocations (execute_bash_trampoline sampleEnv ⟨2, [10, 10], 10⟩ 4096 [3, 4]
        ["myfn", "int:%d", "bogus:%z"] shell0).trace =
      [(1, [some "myfn", some "pointer:0x1000", some "int:3", none])] := by
  decide

/-- C10: the trampoline never writes to native memory itself.  If the name
does not resolve, memory is unchanged; otherwise memory on return is exactly
what the one invoked function left, and the second word given to that
function is `pointer:<retval>`. -/
theorem C10_trampoline_never_writes_return_slot (E : Externals) (cif : ffi_cif)
    (retval : Ptr) (args : List RawArg) (proto : List String) (s : Shell) :
    match E.find_function (proto.getD 0 "") with
    | none => (execute_bash_trampoline E cif retval args proto s).mem = s.mem
    | some function =>
      ∃ params : WORD_LIST,
        invocations (execute_bash_trampoline E cif retval args proto s).trace =
          invocations s.trace ++ [(function, params)] ∧
        (execute_bash_trampoline E cif retval args proto s).mem =
          E.execute_shell_function function params s.mem ∧
        (execute_bash_trampoline E cif retval args proto s).mem retval =
          E.execute_shell_function function params s.mem retval ∧
        params.get? 1 = some (some ("pointer:" ++ E.fmt_p retval)) := by
  cases hf : E.find_function (proto.getD 0 "") with
  | none =>
    show (execute_bash_trampoline E cif retval args proto s).mem = s.mem
    rw [trampoline_unresolved E cif retval args proto s hf]
    rfl
  | some function =>
    show ∃ params : WORD_LIST,
        invocations (execute_bash_trampoline E cif retval args proto s).trace =
          invocations s.trace ++ [(function, params)] ∧
        (execute_bash_trampoline E cif retval args proto s).mem =
          E.execute_shell_function function params s.mem ∧
        (execute_bash_trampoline E cif retval args proto s).mem retval =
          E.execute_shell_function function params s.mem retval ∧
        params.get? 1 = some (some ("pointer:" ++ E.fmt_p retval))
    rw [trampoline_resolved E cif retval args proto s function hf]
    refine ⟨some (proto.getD 0 "") :: some ("pointer:" ++ E.fmt_p retval) ::
      (List.range (loop_start cif.nargs + 1).toNat).map (fun i =>
        E.encode_primitive_type (proto.getD (i + 1) "")
          (cif.arg_types.getD i 0) (args.getD i 0)), ?_, rfl, rfl, rfl⟩
    simp only [invocations_append, invocations_encode_events, List.append_nil]
    rfl

/-! ## Facts about `generate_native_callback` -/

theorem bindings_append (a b : List Event) :
    bindings (a ++ b) = bindings a ++ bindings b := by
  simp [bindings, List.filterMap_append]

theorem prep_calls_append (a b : List Event) :
    prep_calls (a ++ b) = prep_calls a ++ prep_calls b := by
  simp [prep_calls, List.filter_append]

theorem bindings_parse_phase (evs : List Event) (h : ∀ e ∈ evs, parse_phase e = true) :
    bindings evs = [] := by
  induction evs with
  | nil => rfl
  | cons e evs ih =>
    have he := h e (List.mem_cons_self _ _)
    have ht := ih (fun x hx => h x (List.mem_cons_of_mem _ hx))
    cases e <;> simp_all [bindings, parse_phase]

theorem prep_calls_parse_phase (evs : List Event) (h : ∀ e ∈ evs, parse_phase e = true) :
    prep_calls evs = [] := by
  induction evs with
  | nil => rfl
  | cons e evs ih =>
    have he := h e (List.mem_cons_self _ _)
    have ht := ih (fun x hx => h x (List.mem_cons_of_mem _ hx))
    cases e <;> simp_all [prep_calls, parse_phase]

theorem realloc_set {α : Type} [Inhabited α] (l : List α) (n : Nat) (x : α)
    (h : l.length = n) : (realloc l (n + 1)).set n x = l ++ [x] := by
  subst h
  have h1 : l.take (l.length + 1) = l := List.take_of_length_le (Nat.le_succ _)
  have h2 : l.length + 1 - l.length = 1 := by omega
  simp [realloc, h1, h2]

/-- The option loop on options that are all `-n`: it runs to its end, and the
result name is the argument of the last one. -/
theorem process_options_n (E : Externals) (s : Shell) :
    ∀ (ns : List String) (resultname : String),
      process_options E (n_options ns) resultname s =
        Options.proceed (ns.getLast?.getD resultname) := by
  intro ns
  induction ns with
  | nil => intro r; rfl
  | cons a ns ih =>
    intro r
    simp only [n_options, List.map_cons, process_options, if_true] at ih ⊢
    rw [ih a]
    cases ns with
    | nil => rfl
    | cons b ns =>
      rw [List.getLast?_cons_cons, List.getLast?_eq_getLast _ (List.cons_ne_nil _ _)]
      rfl

/-- The option loop on `-n` options followed by one more option: the `switch`
is decided by that option. -/
theorem process_options_n_then (E : Externals) (s : Shell) (c : Char) (a : String)
    (rest : List (Char × String)) (hc : c ≠ 'n') :
    ∀ (ns : List String) (resultname : String),
      process_options E (n_options ns ++ (c, a) :: rest) resultname s =
        if c = 'd' then
          match E.decode_primitive_type a ffi_type_pointer with
          | none =>
            Options.returned EXECUTION_FAILURE
              (s.emit (Event.builtin_error ("failed to decode callback from parameter " ++ a)))
          | some callback => Options.returned 0 (s.emit (Event.free callback))
        else Options.returned EX_USAGE (s.emit Event.builtin_usage) := by
  intro ns
  induction ns with
  | nil =>
    intro r
    simp only [n_options, List.map_nil, List.nil_append, process_options, if_neg hc]
  | cons b ns ih =>
    intro r
    simp only [n_options, List.map_cons, List.cons_append, process_options, if_true] at ih ⊢
    exact ih b

/-- The argument loop when every token parses (`ps` lists what the tokens parse
to): the two arrays grow in lockstep by the parsed types and formats. -/
theorem decode_arguments_ok (E : Externals) :
    ∀ (toks : List String) (ps : List (ffi_type × String)) (nargs : Nat)
      (argtypes : List ffi_type) (proto : List String) (s : Shell),
      toks.map E.decode_type_prefix = ps.map some →
      argtypes.length = nargs → proto.length = nargs + 1 →
      decode_arguments E toks nargs argtypes proto s =
        (some (nargs + toks.length, argtypes ++ ps.map Prod.fst, proto ++ ps.map Prod.snd),
         { s with trace := s.trace ++ toks.map Event.decode_type_prefix }) := by
  intro toks
  induction toks with
  | nil =>
    intro ps nargs argtypes proto s hps _ _
    cases ps with
    | nil => simp [decode_arguments]
    | cons p ps => simp at hps
  | cons w toks ih =>
    intro ps nargs argtypes proto s hps ha hp
    cases ps with
    | nil => simp at hps
    | cons p ps =>
      simp only [List.map_cons, List.cons.injEq] at hps
      obtain ⟨hw, hrest⟩ := hps
      obtain ⟨t, f⟩ := p
      simp only [decode_arguments, hw, realloc_set argtypes nargs t ha,
        realloc_set proto (nargs + 1) f hp]
      rw [ih ps (nargs + 1) (argtypes ++ [t]) (proto ++ [f]) _ hrest (by simp [ha])
        (by simp [hp])]
      simp only [Shell.emit, List.length_cons, List.map_cons, List.append_assoc,
        List.singleton_append]
      congr 3
      omega

/-- The argument loop when some token does not parse: it ends at `error`. -/
theorem decode_arguments_fail (E : Externals) :
    ∀ (toks : List String) (nargs : Nat) (argtypes : List ffi_type)
      (proto : List String) (s : Shell),
      (∃ w ∈ toks, E.decode_type_prefix w = none) →
      (decode_arguments E toks nargs argtypes proto s).1 = none := by
  intro toks
  induction toks with
  | nil => intro _ _ _ _ h; simp at h
  | cons w toks ih =>
    intro nargs argtypes proto s h
    cases hw : E.decode_type_prefix w with
    | none => simp only [decode_arguments, hw]
    | some p =>
      obtain ⟨t, f⟩ := p
      simp only [decode_arguments, hw]
      apply ih
      obtain ⟨x, hx, hxn⟩ := h
      rcases List.mem_cons.mp hx with rfl | hx
      · rw [hw] at hxn; cases hxn
      · exact ⟨x, hx, hxn⟩

/-- The argument loop only adds events of the parsing phase to the trace and
changes nothing else in the state. -/
theorem decode_arguments_frame (E : Externals) :
    ∀ (toks : List String) (nargs : Nat) (argtypes : List ffi_type)
      (proto : List String) (s : Shell),
      ∃ evs : List Event,
        (decode_arguments E toks nargs argtypes proto s).2 =
          { s with trace := s.trace ++ evs } ∧
        ∀ e ∈ evs, parse_phase e = true := by
  intro toks
  induction toks with
  | nil =>
    intro nargs argtypes proto s
    exact ⟨[], by simp [decode_arguments], by simp⟩
  | cons w toks ih =>
    intro nargs argtypes proto s
    cases hw : E.decode_type_prefix w with
    | none =>
      refine ⟨[ Event.decode_type_prefix w,
        Event.builtin_error ("failed to decode type from parameter " ++ w)], ?_, ?_⟩
      · simp [decode_arguments, hw, Shell.emit]
      · intro e he
        simp only [List.mem_cons, List.mem_singleton, List.not_mem_nil, or_false] at he
        rcases he with rfl | rfl <;> rfl
    | some p =>
      obtain ⟨t, f⟩ := p
      obtain ⟨evs, h1, h2⟩ := ih (nargs + 1) ((realloc argtypes (nargs + 1)).set nargs t)
        ((realloc proto (nargs + 1 + 1)).set (nargs + 1) f)
        (s.emit ( Event.decode_type_prefix w))
      refine ⟨ Event.decode_type_prefix w :: evs, ?_, ?_⟩
      · simp only [decode_arguments, hw]
        rw [h1]
        simp only [Shell.emit, List.append_assoc, List.singleton_append]
      · intro e he
        rcases List.mem_cons.mp he with rfl | he
        · rfl
        · exact h2 e he

/-- The whole of `generate_native_callback` on a request with `-n` options
only, a name, a return token and argument tokens that all parse. -/
theorem generate_parsed (E : Externals) (list ns : List String) (name rettok : String)
    (toks : List String) (rettype : ffi_type) (rfmt : String)
    (ps : List (ffi_type × String)) (s : Shell)
    (hopt : E.internal_getopt list = (n_options ns, name :: rettok :: toks))
    (hret : E.decode_type_prefix rettok = some (rettype, rfmt))
    (hargs : toks.map E.decode_type_prefix = ps.map some) :
    generate_native_callback E list s =
      (0,
        if E.ffi_prep_cif ⟨toks.length, ps.map Prod.fst, rettype⟩ = ffi_status.FFI_OK then
          if E.ffi_prep_closure_loc E.ffi_closure_alloc.1
              ⟨toks.length, ps.map Prod.fst, rettype⟩ (name :: ps.map Prod.snd)
              E.ffi_closure_alloc.2 = ffi_status.FFI_OK then
            { trace := s.trace ++
                ([Event.ffi_closure_alloc E.ffi_closure_alloc.1 E.ffi_closure_alloc.2,
                  Event.decode_type_prefix rettok] ++ toks.map Event.decode_type_prefix ++
                 [Event.ffi_prep_cif ⟨toks.length, ps.map Prod.fst, rettype⟩,
                  Event.ffi_prep_closure_loc E.ffi_closure_alloc.1
                    ⟨toks.length, ps.map Prod.fst, rettype⟩ (name :: ps.map Prod.snd)
                    E.ffi_closure_alloc.2] ++
                 (if E.interactive_shell then
                    [Event.fprintf_stderr ("pointer:" ++ E.fmt_p E.ffi_closure_alloc.2 ++ "\n")]
                  else []) ++
                 [Event.bind_variable (ns.getLast?.getD "DLRETVAL")
                    ("pointer:" ++ E.fmt_p E.ffi_closure_alloc.2)])
              closures := Closure.mk E.ffi_closure_alloc.2
                ⟨toks.length, ps.map Prod.fst, rettype⟩ (name :: ps.map Prod.snd) :: s.closures
              mem := s.mem }
          else
            { s with trace := s.trace ++
                ([Event.ffi_closure_alloc E.ffi_closure_alloc.1 E.ffi_closure_alloc.2,
                  Event.decode_type_prefix rettok] ++ toks.map Event.decode_type_prefix ++
                 [Event.ffi_prep_cif ⟨toks.length, ps.map Prod.fst, rettype⟩,
                  Event.ffi_prep_closure_loc E.ffi_closure_alloc.1
                    ⟨toks.length, ps.map Prod.fst, rettype⟩ (name :: ps.map Prod.snd)
                    E.ffi_closure_alloc.2]) }
        else
          { s with trace := s.trace ++
              ([Event.ffi_closure_alloc E.ffi_closure_alloc.1 E.ffi_closure_alloc.2,
                Event.decode_type_prefix rettok] ++ toks.map Event.decode_type_prefix ++
               [Event.ffi_prep_cif ⟨toks.length, ps.map Prod.fst, rettype⟩]) }) := by
  unfold generate_native_callback
  simp only [hopt, process_options_n, hret]
  rw [decode_arguments_ok E toks ps 0 [] [name] _ hargs rfl rfl]
  simp only [Nat.zero_add, List.nil_append, List.singleton_append]
  by_cases h1 : E.ffi_prep_cif ⟨toks.length, ps.map Prod.fst, rettype⟩ = ffi_status.FFI_OK
  · by_cases h2 : E.ffi_prep_closure_loc E.ffi_closure_alloc.1
        ⟨toks.length, ps.map Prod.fst, rettype⟩ (name :: ps.map Prod.snd)
        E.ffi_closure_alloc.2 = ffi_status.FFI_OK
    · cases hi : E.interactive_shell <;>
        simp [h1, h2, hi, Shell.emit]
    · simp [h1, h2, Shell.emit]
  · simp [h1, Shell.emit]

/-- The whole of `generate_native_callback` on a request with `-n` options
only in which the return token or an argument token does not parse: the
command returns a non-zero status after events of the parsing phase only, the
first of which is the allocation of the closure. -/
theorem generate_parse_failure (E : Externals) (list ns : List String)
    (name rettok : String) (toks : List String) (s : Shell)
    (hopt : E.internal_getopt list = (n_options ns, name :: rettok :: toks))
    (hfail : ∃ w ∈ rettok :: toks, E.decode_type_prefix w = none) :
    ∃ (status : Int) (evs : List Event),
      generate_native_callback E list s = (status, { s with trace := s.trace ++ evs }) ∧
      status ≠ 0 ∧ (∀ e ∈ evs, parse_phase e = true) ∧
      Event.ffi_closure_alloc E.ffi_closure_alloc.1 E.ffi_closure_alloc.2 ∈ evs := by
  unfold generate_native_callback
  simp only [hopt, process_options_n]
  cases hret : E.decode_type_prefix rettok with
  | none =>
    refine ⟨EXECUTION_FAILURE,
      [Event.ffi_closure_alloc E.ffi_closure_alloc.1 E.ffi_closure_alloc.2,
        Event.decode_type_prefix rettok,
        Event.builtin_warning ("couldnt parse the return type " ++ rettok)],
      ?_, by decide, ?_, by simp⟩
    · simp [Shell.emit]
    · intro e he
      simp only [List.mem_cons, List.mem_singleton, List.not_mem_nil, or_false] at he
      rcases he with rfl | rfl | rfl <;> rfl
  | some p =>
    obtain ⟨rettype, rfmt⟩ := p
    have hfail2 : ∃ w ∈ toks, E.decode_type_prefix w = none := by
      obtain ⟨w, hw, hwn⟩ := hfail
      rcases List.mem_cons.mp hw with rfl | hw
      · rw [hret] at hwn
        cases hwn
      · exact ⟨w, hw, hwn⟩
    obtain ⟨evs, h1, h2⟩ := decode_arguments_frame E toks 0 [] [name]
      ((s.emit (Event.ffi_closure_alloc E.ffi_closure_alloc.1 E.ffi_closure_alloc.2)).emit
        ( Event.decode_type_prefix rettok))
    have h3 := decode_arguments_fail E toks 0 [] [name]
      ((s.emit (Event.ffi_closure_alloc E.ffi_closure_alloc.1 E.ffi_closure_alloc.2)).emit
        ( Event.decode_type_prefix rettok)) hfail2
    simp only []
    generalize decode_arguments E toks 0 [] [name]
      ((s.emit (Event.ffi_closure_alloc E.ffi_closure_alloc.1 E.ffi_closure_alloc.2)).emit
        ( Event.decode_type_prefix rettok)) = r at h1 h3 ⊢
    obtain ⟨o, s2⟩ := r
    simp only at h1 h3
    subst h3
    subst h1
    refine ⟨1, Event.ffi_closure_alloc E.ffi_closure_alloc.1 E.ffi_closure_alloc.2 ::
       Event.decode_type_prefix rettok :: evs, ?_, by decide, ?_, by simp⟩
    · simp [Shell.emit]
    · intro e he
      rcases List.mem_cons.mp he with rfl | he
      · rfl
      · rcases List.mem_cons.mp he with rfl | he
        · rfl
        · exact h2 e he

/-- The whole of `generate_native_callback` when `internal_getopt` returns,
after `-n` options, an option that is not `-n`: the function returns from
inside the option loop. -/
theorem generate_returns_in_options (E : Externals) (list ns : List String) (s : Shell)
    (c : Char) (a : String) (rest : List (Char × String)) (hc : c ≠ 'n')
    (hopt : ( E.internal_getopt list).1 = n_options ns ++ (c, a) :: rest) :
    generate_native_callback E list s =
      if c = 'd' then
        match E.decode_primitive_type a ffi_type_pointer with
        | none =>
          (EXECUTION_FAILURE,
            s.emit (Event.builtin_error ("failed to decode callback from parameter " ++ a)))
        | some callback => (0, s.emit (Event.free callback))
      else (EX_USAGE, s.emit Event.builtin_usage) := by
  unfold generate_native_callback
  simp only [hopt, process_options_n_then E s c a rest hc ns]
  by_cases hd : c = 'd'
  · simp only [if_pos hd]
    cases E.decode_primitive_type a ffi_type_pointer <;> rfl
  · simp only [if_neg hd]

/-- The whole of `generate_native_callback` when all options are `-n` and
fewer than two words follow them. -/
theorem generate_too_few_words (E : Externals) (list ns : List String) (s : Shell)
    (hopt : ( E.internal_getopt list).1 = n_options ns)
    (hlen : ( E.internal_getopt list).2.length < 2) :
    generate_native_callback E list s = (EX_USAGE, s.emit Event.builtin_usage) := by
  unfold generate_native_callback
  simp only [hopt, process_options_n]
  generalize ( E.internal_getopt list).2 = l at hlen
  cases l with
  | nil => rfl
  | cons x l =>
    cases l with
    | nil => rfl
    | cons y l =>
      simp only [List.length_cons] at hlen
      omega

theorem codec_calls_zipWith3 :
    ∀ (hs : List String) (ts : List ffi_type) (args : List RawArg),
      codec_calls ((List.zipWith₃ Event.encode_primitive_type hs ts args).reverse) =
        (List.zipWith₃ (fun h t a => (h, t, a)) hs ts args).reverse := by
  intro hs
  induction hs with
  | nil => intro ts args; rfl
  | cons h hs ih =>
    intro ts args
    cases ts with
    | nil => rfl
    | cons t ts =>
      cases args with
      | nil => rfl
      | cons a args =>
        simp only [List.zipWith₃, List.reverse_cons]
        rw [codec_calls_append, ih ts args]
        rfl

/-- Tokens that all parse have a list of parse results. -/
theorem parsed_list (E : Externals) :
    ∀ (toks : List String), (∀ w ∈ toks, E.decode_type_prefix w ≠ none) →
      ∃ ps : List (ffi_type × String), toks.map E.decode_type_prefix = ps.map some := by
  intro toks
  induction toks with
  | nil => intro _; exact ⟨[], rfl⟩
  | cons w toks ih =>
    intro h
    obtain ⟨ps, hps⟩ := ih (fun x hx => h x (List.mem_cons_of_mem _ hx))
    cases hw : E.decode_type_prefix w with
    | none => exact absurd hw (h w (List.mem_cons_self _ _))
    | some p => exact ⟨p :: ps, by simp [hw, hps]⟩

/-- A native call of the address of the newest closure enters the trampoline
with the descriptor and the context of that closure. -/
theorem native_call_newest (E : Externals) (code : Ptr) (cif : ffi_cif)
    (user_data : List String) (rest : List Closure) (retval : Ptr) (args : List RawArg)
    (t : Shell) (ht : t.closures = Closure.mk code cif user_data :: rest) :
    native_call E code retval args t =
      some (execute_bash_trampoline E cif retval args user_data t) := by
  simp [native_call, ht]

/-! ## Claims about `generate_native_callback` -/

/-- C6, evaluated where the code departs from it: on `callback myfn int int
int`, with every token parsing, a libffi whose `ffi_prep_cif` returns
`FFI_BAD_TYPEDEF`, or one whose `ffi_prep_closure_loc` returns `FFI_BAD_ABI`,
makes the command bind nothing, and yet it returns 0, the status of
success. -/
theorem C6_abi_failure_returns_success :
    badCifEnv.ffi_prep_cif ⟨2, [10, 10], 10⟩ = ffi_status.FFI_BAD_TYPEDEF ∧
    (generate_native_callback badCifEnv ["myfn", "int", "int", "int"] shell0).1 = 0 ∧
    bindings (generate_native_callback badCifEnv ["myfn", "int", "int", "int"] shell0).2.trace
      = [] ∧
    badClosureEnv.ffi_prep_closure_loc 24576 ⟨2, [10, 10], 10⟩ ["myfn", "int:%d", "int:%d"]
      28672 = ffi_status.FFI_BAD_ABI ∧
    (generate_native_callback badClosureEnv ["myfn", "int", "int", "int"] shell0).1 = 0 ∧
    bindings (generate_native_callback badClosureEnv
      ["myfn", "int", "int", "int"] shell0).2.trace = [] ∧
    (generate_native_callback sampleEnv ["myfn", "int", "bogus"] shell0).1 = 1 := by
  decide

/-- C2: on a create request whose tokens all parse (`ps` lists what the
argument tokens parse to, in order), `generate_native_callback` hands
`ffi_prep_cif` a descriptor with `nargs = n` whose argument type `i` is the
type parsed from token `i`, and builds a closure context of `n + 1` entries,
the name followed by the format parsed from each token; when libffi accepts
both, that descriptor and that context are bound to the callback address, and
every later native call of the address, with `n` arguments and the name
resolving, calls the codec for argument `i` with exactly the format and the
type parsed from token `i` (`n` a C `int` argument count). -/
theorem C2_index_lockstep (E : Externals) (list ns : List String) (name rettok : String)
    (toks : List String) (s : Shell)
    (hopt : E.internal_getopt list = (n_options ns, name :: rettok :: toks))
    (hparse : ∀ w ∈ rettok :: toks, E.decode_type_prefix w ≠ none)
    (hn : toks.length < 2 ^ 31) :
    ∃ (rettype : ffi_type) (rfmt : String) (ps : List (ffi_type × String)),
      E.decode_type_prefix rettok = some (rettype, rfmt) ∧
      toks.map E.decode_type_prefix = ps.map some ∧
      Event.ffi_prep_cif ⟨toks.length, ps.map Prod.fst, rettype⟩ ∈
        (generate_native_callback E list s).2.trace ∧
      (ps.map Prod.fst).length = toks.length ∧
      (name :: ps.map Prod.snd).length = toks.length + 1 ∧
      (E.ffi_prep_cif ⟨toks.length, ps.map Prod.fst, rettype⟩ = ffi_status.FFI_OK →
        Event.ffi_prep_closure_loc E.ffi_closure_alloc.1
            ⟨toks.length, ps.map Prod.fst, rettype⟩ (name :: ps.map Prod.snd)
            E.ffi_closure_alloc.2 ∈ (generate_native_callback E list s).2.trace) ∧
      (E.ffi_prep_cif ⟨toks.length, ps.map Prod.fst, rettype⟩ = ffi_status.FFI_OK →
        E.ffi_prep_closure_loc E.ffi_closure_alloc.1
            ⟨toks.length, ps.map Prod.fst, rettype⟩ (name :: ps.map Prod.snd)
            E.ffi_closure_alloc.2 = ffi_status.FFI_OK →
        (generate_native_callback E list s).2.closures =
            Closure.mk E.ffi_closure_alloc.2 ⟨toks.length, ps.map Prod.fst, rettype⟩
              (name :: ps.map Prod.snd) :: s.closures ∧
          ∀ (t : Shell) (retval : Ptr) (args : List RawArg) (function : SHELL_VAR),
            t.closures = (generate_native_callback E list s).2.closures →
            args.length = toks.length → E.find_function name = some function →
            ∃ t2 : Shell,
              native_call E E.ffi_closure_alloc.2 retval args t = some t2 ∧
              codec_calls t2.trace = codec_calls t.trace ++
                (List.zipWith₃ (fun h ty a => (h, ty, a))
                  (ps.map Prod.snd) (ps.map Prod.fst) args).reverse) := by
  cases hret : E.decode_type_prefix rettok with
  | none => exact absurd hret (hparse rettok (List.mem_cons_self _ _))
  | some p =>
    obtain ⟨rettype, rfmt⟩ := p
    obtain ⟨ps, hargs⟩ := parsed_list E toks (fun x hx => hparse x (List.mem_cons_of_mem _ hx))
    have hlen : ps.length = toks.length := by
      have := congrArg List.length hargs
      simpa using this.symm
    refine ⟨rettype, rfmt, ps, rfl, hargs, ?_, by simp [hlen], by simp [hlen], ?_, ?_⟩
    · rw [generate_parsed E list ns name rettok toks rettype rfmt ps s hopt hret hargs]
      by_cases h1 : E.ffi_prep_cif ⟨toks.length, ps.map Prod.fst, rettype⟩ = ffi_status.FFI_OK
      · by_cases h2 : E.ffi_prep_closure_loc E.ffi_closure_alloc.1
            ⟨toks.length, ps.map Prod.fst, rettype⟩ (name :: ps.map Prod.snd)
            E.ffi_closure_alloc.2 = ffi_status.FFI_OK
        · rw [if_pos h1, if_pos h2]
          simp
        · rw [if_pos h1, if_neg h2]
          simp
      · rw [if_neg h1]
        simp
    · intro h1
      rw [generate_parsed E list ns name rettok toks rettype rfmt ps s hopt hret hargs]
      by_cases h2 : E.ffi_prep_closure_loc E.ffi_closure_alloc.1
          ⟨toks.length, ps.map Prod.fst, rettype⟩ (name :: ps.map Prod.snd)
          E.ffi_closure_alloc.2 = ffi_status.FFI_OK
      · rw [if_pos h1, if_pos h2]
        simp
      · rw [if_pos h1, if_neg h2]
        simp
    · intro h1 h2
      rw [generate_parsed E list ns name rettok toks rettype rfmt ps s hopt hret hargs,
        if_pos h1, if_pos h2]
      refine ⟨rfl, ?_⟩
      intro t retval args function ht hargsl hf
      rw [native_call_newest E _ _ _ _ retval args t ht]
      refine ⟨_, rfl, ?_⟩
      rw [← hargsl, trampoline_lockstep E name (ps.map Prod.snd) (ps.map Prod.fst) rettype
        args retval t function (by simp [hlen, hargsl]) (by simp [hlen, hargsl])
        (by rw [hargsl]; exact hn) hf]
      simp only [codec_calls_append, codec_calls_zipWith3]
      simp [codec_calls]

/-- C2 on `callback myfn int int pointer` in the sample environment. -/
theorem C2_witness :
    ∃ (rettype : ffi_type) (rfmt : String) (ps : List (ffi_type × String)),
      sampleEnv.decode_type_prefix "int" = some (rettype, rfmt) ∧
      (["int", "pointer"] : List String).map sampleEnv.decode_type_prefix = ps.map some ∧
      Event.ffi_prep_cif ⟨(["int", "pointer"] : List String).length, ps.map Prod.fst, rettype⟩ ∈
        (generate_native_callback sampleEnv ["myfn", "int", "int", "pointer"] shell0).2.trace :=
  match C2_index_lockstep sampleEnv ["myfn", "int", "int", "pointer"] [] "myfn" "int"
      ["int", "pointer"] shell0 (by decide) (by decide) (by norm_num) with
  | ⟨rettype, rfmt, ps, h1, h2, h3, _⟩ => ⟨rettype, rfmt, ps, h1, h2, h3⟩

/-- C4, refuted as stated: on `callback myfn int bogus`, whose last token does
not parse, and on `callback myfn bogus`, whose return token does not parse,
the command fails, but `ffi_closure_alloc` has been called: the executable
closure is allocated before any token is parsed. -/
theorem C4_counterexample :
    sampleEnv.decode_type_prefix "bogus" = none ∧
    (generate_native_callback sampleEnv ["myfn", "int", "bogus"] shell0).1 = 1 ∧
    Event.ffi_closure_alloc 24576 28672 ∈
      (generate_native_callback sampleEnv ["myfn", "int", "bogus"] shell0).2.trace ∧
    (generate_native_callback sampleEnv ["myfn", "bogus"] shell0).1 = EXECUTION_FAILURE ∧
    Event.ffi_closure_alloc 24576 28672 ∈
      (generate_native_callback sampleEnv ["myfn", "bogus"] shell0).2.trace := by
  decide

/-- C4, amended: on a create request in which the return token or some
argument token does not parse, the command returns a non-zero status; the
closure that `ffi_closure_alloc` handed out before the parsing is never
prepared (neither `ffi_prep_cif` nor `ffi_prep_closure_loc` is called), no
closure becomes callable, and no variable is bound. -/
theorem C4_parse_failure_binds_nothing (E : Externals) (list ns : List String)
    (name rettok : String) (toks : List String) (s : Shell)
    (hopt : E.internal_getopt list = (n_options ns, name :: rettok :: toks))
    (hfail : ∃ w ∈ rettok :: toks, E.decode_type_prefix w = none) :
    (generate_native_callback E list s).1 ≠ 0 ∧
      bindings (generate_native_callback E list s).2.trace = bindings s.trace ∧
      prep_calls (generate_native_callback E list s).2.trace = prep_calls s.trace ∧
      (generate_native_callback E list s).2.closures = s.closures ∧
      Event.ffi_closure_alloc E.ffi_closure_alloc.1 E.ffi_closure_alloc.2 ∈
        (generate_native_callback E list s).2.trace := by
  obtain ⟨status, evs, h, hst, hev, hal⟩ :=
    generate_parse_failure E list ns name rettok toks s hopt hfail
  rw [h]
  refine ⟨hst, ?_, ?_, rfl, ?_⟩
  · simp only [bindings_append, bindings_parse_phase evs hev, List.append_nil]
  · simp only [prep_calls_append, prep_calls_parse_phase evs hev, List.append_nil]
  · exact List.mem_append_right _ hal

/-- C4, amended, on `callback myfn int bogus` in the sample environment. -/
theorem C4_witness :
    (generate_native_callback sampleEnv ["myfn", "int", "bogus"] shell0).1 ≠ 0 ∧
      bindings (generate_native_callback sampleEnv ["myfn", "int", "bogus"] shell0).2.trace =
        bindings shell0.trace ∧
      prep_calls (generate_native_callback sampleEnv ["myfn", "int", "bogus"] shell0).2.trace =
        prep_calls shell0.trace ∧
      (generate_native_callback sampleEnv ["myfn", "int", "bogus"] shell0).2.closures =
        shell0.closures ∧
      Event.ffi_closure_alloc sampleEnv.ffi_closure_alloc.1 sampleEnv.ffi_closure_alloc.2 ∈
        (generate_native_callback sampleEnv ["myfn", "int", "bogus"] shell0).2.trace :=
  C4_parse_failure_binds_nothing sampleEnv ["myfn", "int", "bogus"] [] "myfn" "int"
    ["bogus"] shell0 (by decide) (by decide)

/-- C7, refuted as stated: after `callback myfn int int int` has bound
`pointer:0x7000`, destroying that handle returns 0, destroying it a second
time returns 0 again, and destroying `pointer:0xdead`, which no create ever
produced, returns 0 as well. -/
theorem C7_counterexample :
    bindings (generate_native_callback sampleEnv ["myfn", "int", "int", "int"] shell0).2.trace =
      [("DLRETVAL", "pointer:0x7000")] ∧
    (generate_native_callback sampleEnv ["-d", "pointer:0x7000"]
      (generate_native_callback sampleEnv ["myfn", "int", "int", "int"] shell0).2).1 = 0 ∧
    (generate_native_callback sampleEnv ["-d", "pointer:0x7000"]
      (generate_native_callback sampleEnv ["-d", "pointer:0x7000"]
        (generate_native_callback sampleEnv ["myfn", "int", "int", "int"] shell0).2).2).1 = 0 ∧
    (generate_native_callback sampleEnv ["-d", "pointer:0xdead"]
      (generate_native_callback sampleEnv ["myfn", "int", "int", "int"] shell0).2).1 = 0 := by
  decide

/-- C7, amended: the destroy option keeps no record of handles.  When
`internal_getopt` returns `-d handle` (after `-n` options only), the status of
the command is decided by the text of the handle alone, whatever was created
or destroyed before: the failure status when the text does not decode as a
pointer value, and 0 for every handle that decodes. -/
theorem C7_destroy_keeps_no_record (E : Externals) (list ns : List String) (s : Shell)
    (handle : String) (rest : List (Char × String))
    (hopt : ( E.internal_getopt list).1 = n_options ns ++ ('d', handle) :: rest) :
    (generate_native_callback E list s).1 =
      (match E.decode_primitive_type handle ffi_type_pointer with
       | none => EXECUTION_FAILURE
       | some _ => 0) := by
  rw [generate_returns_in_options E list ns s 'd' handle rest (by decide) hopt, if_pos rfl]
  cases E.decode_primitive_type handle ffi_type_pointer <;> rfl

/-- C7, amended, on the second `callback -d pointer:0x7000` after `callback
myfn int int int` in the sample environment. -/
theorem C7_witness :
    (generate_native_callback sampleEnv ["-d", "pointer:0x7000"]
      (generate_native_callback sampleEnv ["-d", "pointer:0x7000"]
        (generate_native_callback sampleEnv ["myfn", "int", "int", "int"] shell0).2).2).1 =
      (match sampleEnv.decode_primitive_type "pointer:0x7000" ffi_type_pointer with
       | none => EXECUTION_FAILURE
       | some _ => 0) :=
  C7_destroy_keeps_no_record sampleEnv ["-d", "pointer:0x7000"] []
    (generate_native_callback sampleEnv ["-d", "pointer:0x7000"]
      (generate_native_callback sampleEnv ["myfn", "int", "int", "int"] shell0).2).2
    "pointer:0x7000" [] (by decide)

/-- C9, refuted as stated: `callback -d pointer:0x7000` has no positional word
at all, and `callback -d pointer:0x7000 -z` has the unknown option `-z` as
well; both return 0, not `EX_USAGE`, because the command returns from the
`-d` case before it looks further. -/
theorem C9_counterexample :
    (sample_getopt ["-d", "pointer:0x7000"]).2.length < 2 ∧
    (generate_native_callback sampleEnv ["-d", "pointer:0x7000"] shell0).1 = 0 ∧
    (sample_getopt ["-d", "pointer:0x7000", "-z"]).1 = [('d', "pointer:0x7000"), ('?', "")] ∧
    (generate_native_callback sampleEnv ["-d", "pointer:0x7000", "-z"] shell0).1 = 0 ∧
    (0 : Int) ≠ EX_USAGE := by
  decide

/-- C9, amended: when no `-d` option comes first, malformed arguments give the
usage error.  If `internal_getopt` returns, after `-n` options only, an option
other than `-n` and `-d`, or if it returns `-n` options only and fewer than
two words follow them, the command returns `EX_USAGE`, and all it has done is
to print the usage: no closure is allocated, no token parsed, no variable
bound. -/
theorem C9_usage_error (E : Externals) (list ns : List String) (s : Shell)
    (tail : List (Char × String))
    (hopt : ( E.internal_getopt list).1 = n_options ns ++ tail)
    (hmal : (∃ c a rest, tail = (c, a) :: rest ∧ c ≠ 'n' ∧ c ≠ 'd') ∨
      (tail = [] ∧ ( E.internal_getopt list).2.length < 2)) :
    (generate_native_callback E list s).1 = EX_USAGE ∧
      (generate_native_callback E list s).2 = s.emit Event.builtin_usage ∧
      (generate_native_callback E list s).2.trace = s.trace ++ [Event.builtin_usage] ∧
      (generate_native_callback E list s).2.closures = s.closures := by
  have h : generate_native_callback E list s = (EX_USAGE, s.emit Event.builtin_usage) := by
    rcases hmal with ⟨c, a, rest, rfl, hn, hd⟩ | ⟨rfl, hlen⟩
    · rw [generate_returns_in_options E list ns s c a rest hn hopt, if_neg hd]
    · rw [List.append_nil] at hopt
      exact generate_too_few_words E list ns s hopt hlen
  rw [h]
  exact ⟨rfl, rfl, rfl, rfl⟩

/-- C9, amended, on `callback -n CB -z myfn int`, which has the unknown option
`-z`. -/
theorem C9_witness :
    (generate_native_callback sampleEnv ["-n", "CB", "-z", "myfn", "int"] shell0).1 = EX_USAGE ∧
      (generate_native_callback sampleEnv ["-n", "CB", "-z", "myfn", "int"] shell0).2 =
        shell0.emit Event.builtin_usage ∧
      (generate_native_callback sampleEnv ["-n", "CB", "-z", "myfn", "int"] shell0).2.trace =
        shell0.trace ++ [Event.builtin_usage] ∧
      (generate_native_callback sampleEnv ["-n", "CB", "-z", "myfn", "int"] shell0).2.closures =
        shell0.closures :=
  C9_usage_error sampleEnv ["-n", "CB", "-z", "myfn", "int"] ["CB"] shell0 [('?', "")]
    (by decide) (Or.inl ⟨'?', "", [], rfl, by decide, by decide⟩)

end Callback
